import Mathlib

/-
Shallow embedding of `src/src/game.js` (a small 2D tank arcade game).
Positions, angles, speeds and timers are real numbers, mirroring the
JavaScript floating-point values.  `Math.hypot`, `Math.cos`, `Math.sin`,
`Math.sqrt` and `Math.atan2` are embedded as the corresponding real
functions.  Randomness (`Math.random()`) is made explicit: every call site
receives its random draw as a parameter.  DOM access (canvas, HUD elements,
status text) is pure output and is not modelled; the particle list, which is
write-only for the game logic (it only feeds rendering), is modelled by its
element count.  `WIDTH` and `HEIGHT` come from the canvas element and are
threaded through as parameters `W` and `H`.
-/

namespace TankGame

noncomputable section

/-- `PLAYER_SPEED` constant from game.js line 13. -/
def PLAYER_SPEED : ℝ := 2.6

/-- `BULLET_SPEED` constant from game.js line 14. -/
def BULLET_SPEED : ℝ := 6

/-- `ENEMY_SPEED` constant from game.js line 15. -/
def ENEMY_SPEED : ℝ := 1.8

/-- `ENEMY_COUNT` constant from game.js line 16. -/
def ENEMY_COUNT : ℕ := 5

/-- `PLAYER_MAX_LIVES` constant from game.js line 17. -/
def PLAYER_MAX_LIVES : ℤ := 3

/-- `clamp(value, min, max)` from game.js: `Math.min(Math.max(value, min), max)`. -/
def clamp (value lo hi : ℝ) : ℝ := min (max value lo) hi

/-- `Math.hypot(a, b)`. -/
def hypot (a b : ℝ) : ℝ := Real.sqrt (a ^ 2 + b ^ 2)

/-- `Math.atan2(y, x)`, embedded as the argument of the complex number `x + y i`. -/
def atan2 (y x : ℝ) : ℝ := Complex.arg ⟨x, y⟩

/-- The owner tag string `"player"` used for bullets. -/
def playerTag : String := "player"

/-- The owner tag string `"enemy"` used for bullets. -/
def enemyTag : String := "enemy"

/-- The key code string `"Space"`. -/
def spaceKey : String := "Space"

/-- The key code string `"KeyR"`. -/
def keyR : String := "KeyR"

/-- The `Input` key set, restricted to the four arrow keys the movement code
polls (`pressed("ArrowUp")` etc.). -/
structure Input where
  up : Bool
  down : Bool
  left : Bool
  right : Bool

/-- The `Bullet` class: position, direction, owner tag, size, speed, active flag. -/
structure Bullet where
  x : ℝ
  y : ℝ
  dir : ℝ
  owner : String
  size : ℝ
  speed : ℝ
  active : Bool

/-- The `Bullet` constructor: `new Bullet(x, y, dir, owner)` sets size 6,
speed `BULLET_SPEED`, `active = true`. -/
def mkBullet (x y dir : ℝ) (owner : String) : Bullet :=
  ⟨x, y, dir, owner, 6, BULLET_SPEED, true⟩

/-- `Bullet.update()`: advance along `dir` by `speed`, then deactivate when the
new position exits the playfield by more than the 10-pixel margin. -/
def Bullet.update (W H : ℝ) (b : Bullet) : Bullet :=
  let x := b.x + Real.cos b.dir * b.speed
  let y := b.y + Real.sin b.dir * b.speed
  if x < -10 ∨ x > W + 10 ∨ y < -10 ∨ y > H + 10 then
    { b with x := x, y := y, active := false }
  else
    { b with x := x, y := y }

/-- The `Tank` class: position, heading, size, player flag, shoot cooldown,
speed, AI heading timer.  The `color` field only feeds rendering and is
omitted. -/
structure Tank where
  x : ℝ
  y : ℝ
  angle : ℝ
  size : ℝ
  isPlayer : Bool
  cooldown : ℝ
  speed : ℝ
  targetDirTimer : ℝ

/-- The `Tank` constructor: angle 0, size 36, cooldown 0, speed
`PLAYER_SPEED` for the player and `ENEMY_SPEED` otherwise, timer 0. -/
def mkTank (x y : ℝ) (player : Bool) : Tank :=
  ⟨x, y, 0, 36, player, 0, if player then PLAYER_SPEED else ENEMY_SPEED, 0⟩

/-- Net horizontal key direction of `Tank.handlePlayerInput`: `dx` starts at 0,
`ArrowLeft` subtracts 1, `ArrowRight` adds 1. -/
def playerDX (input : Input) : ℝ :=
  (if input.left then -1 else 0) + (if input.right then 1 else 0)

/-- Net vertical key direction of `Tank.handlePlayerInput`: `dy` starts at 0,
`ArrowUp` subtracts 1, `ArrowDown` adds 1. -/
def playerDY (input : Input) : ℝ :=
  (if input.up then -1 else 0) + (if input.down then 1 else 0)

/-- `Tank.handlePlayerInput(input)`: when the net key direction is nonzero,
normalise it by `Math.hypot(dx, dy)`, move by `speed` along it and turn the
heading to `atan2(dy, dx)`. -/
def handlePlayerInput (t : Tank) (input : Input) : Tank :=
  let dx := playerDX input
  let dy := playerDY input
  if dx ≠ 0 ∨ dy ≠ 0 then
    let len := hypot dx dy
    { t with
      x := t.x + dx / len * t.speed,
      y := t.y + dy / len * t.speed,
      angle := atan2 dy dx }
  else t

/-- Random draws consumed by one `Tank.handleAI` call: the timer draw, the two
heading draws, and the 1%-turn draw. -/
structure AIRand where
  timer : ℝ
  hx : ℝ
  hy : ℝ
  turn : ℝ

/-- `Tank.handleAI(dt)`: decrement the heading timer; on expiry pick a fresh
timer `120 + r*120` and heading `atan2(2r-1, 2r-1)`; move forward at 80% of
base speed; with probability 1% snap the heading by 90 degrees. -/
def handleAI (dt : ℝ) (r : AIRand) (t : Tank) : Tank :=
  let timer0 := t.targetDirTimer - dt
  let timer := if timer0 ≤ 0 then 120 + r.timer * 120 else timer0
  let angle := if timer0 ≤ 0 then atan2 (r.hy * 2 - 1) (r.hx * 2 - 1) else t.angle
  let x := t.x + Real.cos angle * t.speed * 0.8
  let y := t.y + Real.sin angle * t.speed * 0.8
  let angle2 := if r.turn < 0.01 then angle + Real.pi / 2 else angle
  { t with x := x, y := y, angle := angle2, targetDirTimer := timer }

/-- `Tank.update(dt, input)`: dispatch on `isPlayer`, decrement the cooldown
floored at zero, then clamp both coordinates so the full sprite stays inside
the playfield. -/
def Tank.update (W H dt : ℝ) (input : Input) (r : AIRand) (t : Tank) : Tank :=
  let t1 := if t.isPlayer then handlePlayerInput t input else handleAI dt r t
  let t2 := { t1 with cooldown := max 0 (t1.cooldown - dt) }
  { t2 with
    x := clamp t2.x (t2.size / 2) (W - t2.size / 2),
    y := clamp t2.y (t2.size / 2) (H - t2.size / 2) }

/-- `Tank.tryShoot(bullets, owner)`: no-op while the cooldown is positive;
otherwise push a bullet spawned 70% of the tank size ahead of the muzzle and
reset the cooldown to 40. -/
def tryShoot (t : Tank) (bullets : List Bullet) (owner : String) :
    Tank × List Bullet :=
  if t.cooldown > 0 then (t, bullets)
  else
    let bx := t.x + Real.cos t.angle * t.size * 0.7
    let bY := t.y + Real.sin t.angle * t.size * 0.7
    ({ t with cooldown := 40 }, bullets ++ [mkBullet bx bY t.angle owner])

/-- The `Game` mutable state: player tank, enemy roster, bullet list, particle
count (each `addParticles` call pushes 10 cosmetic particles), score, lives,
running flag. -/
structure Game where
  player : Tank
  enemies : List Tank
  bullets : List Bullet
  particles : ℕ
  score : ℕ
  lives : ℤ
  running : Bool

/-- `Game.gameOver()`: sets `running = false` (the status text is display
only). -/
def gameOver (g : Game) : Game := { g with running := false }

/-- `Game.start()`: sets `running = true`. -/
def start (g : Game) : Game := { g with running := true }

/-- `Game.togglePause()`: flips the running flag. -/
def togglePause (g : Game) : Game := { g with running := !g.running }

/-- Random draws consumed when spawning one enemy: the two position draws and
the heading draw. -/
structure SpawnRand where
  rx : ℝ
  ry : ℝ
  rangle : ℝ

/-- `Game.spawnEnemies()`: build a fresh roster of `ENEMY_COUNT` enemies at
`(60 + r*(WIDTH-120), 60 + r*(HEIGHT/2-60))` with a uniformly random
heading. -/
def spawnEnemies (W H : ℝ) (r : ℕ → SpawnRand) : List Tank :=
  (List.range ENEMY_COUNT).map fun i =>
    { mkTank (60 + (r i).rx * (W - 120)) (60 + (r i).ry * (H / 2 - 60)) false
      with angle := (r i).rangle * (Real.pi * 2) }

/-- `Game.reset()`: fresh player at the spawn point, empty bullet and particle
lists, score 0, full lives, fresh roster, not running. -/
def reset (W H : ℝ) (r : ℕ → SpawnRand) (g : Game) : Game :=
  { g with
    player := mkTank (W / 2) (H - 80) true,
    bullets := [],
    particles := 0,
    score := 0,
    lives := PLAYER_MAX_LIVES,
    enemies := spawnEnemies W H r,
    running := false }

/-- The tank-vs-tank `forEach` of `Game.handleCollisions`: scan the enemy
list against the player's position; every overlapping enemy is marked with
`x = -9999`, awards 100 points and two particle bursts, and raises the
`collided` flag.  Returns (enemy list, collided, score gained, particles
gained). -/
def tankCollisionScan (p : Tank) : List Tank → List Tank × Bool × ℕ × ℕ
  | [] => ([], false, 0, 0)
  | e :: es =>
    let r := tankCollisionScan p es
    if hypot (p.x - e.x) (p.y - e.y) < (p.size + e.size) / 2 then
      ({ e with x := -9999 } :: r.1, true, r.2.2.1 + 100, r.2.2.2 + 20)
    else
      (e :: r.1, r.2.1, r.2.2.1, r.2.2.2)

/-- The tank-vs-tank phase of `Game.handleCollisions`: run the scan; if any
enemy collided, filter out the marked enemies, take one life, and either call
`gameOver` or respawn the player at the fixed start position. -/
def tankCollisionPhase (W H : ℝ) (g : Game) : Game :=
  let r := tankCollisionScan g.player g.enemies
  let g1 := { g with
    enemies := r.1, score := g.score + r.2.2.1,
    particles := g.particles + r.2.2.2 }
  if r.2.1 then
    let g2 := { g1 with
      enemies := g1.enemies.filter fun e => decide (0 < e.x),
      lives := g1.lives - 1 }
    if g2.lives ≤ 0 then gameOver g2
    else { g2 with player := { g2.player with x := W / 2, y := H - 80 } }
  else g1

/-- The inner `enemies.forEach` of the player-bullet branch: scan the enemy
list with the bullet's position, skipping once the bullet is no longer
active; a hit deactivates the bullet, awards 100 points and one burst, and
marks the enemy with `x = -9999`.  Returns (enemy list, bullet still active,
score gained, particles gained). -/
def bulletEnemyScan (bx bY : ℝ) : Bool → List Tank → List Tank × Bool × ℕ × ℕ
  | act, [] => ([], act, 0, 0)
  | act, e :: es =>
    if act = true ∧ hypot (bx - e.x) (bY - e.y) < e.size / 2 then
      let r := bulletEnemyScan bx bY false es
      ({ e with x := -9999 } :: r.1, r.2.1, r.2.2.1 + 100, r.2.2.2 + 10)
    else
      let r := bulletEnemyScan bx bY act es
      (e :: r.1, r.2.1, r.2.2.1, r.2.2.2)

/-- One iteration of the `bullets.forEach` of `Game.handleCollisions`:
inactive bullets are skipped; a player bullet is scanned against the enemy
roster, after which the marked enemies are filtered out; an enemy bullet
within the player's radius is deactivated, takes one life and either ends the
game or respawns the player. -/
def bulletStep (W H : ℝ) (g : Game) (b : Bullet) : Game × Bullet :=
  if b.active = false then (g, b)
  else if b.owner = playerTag then
    let r := bulletEnemyScan b.x b.y true g.enemies
    ({ g with
        enemies := r.1.filter fun e => decide (0 < e.x),
        score := g.score + r.2.2.1,
        particles := g.particles + r.2.2.2 },
      { b with active := r.2.1 })
  else if b.owner = enemyTag then
    if hypot (b.x - g.player.x) (b.y - g.player.y) < g.player.size / 2 then
      let g1 := { g with particles := g.particles + 10, lives := g.lives - 1 }
      if g1.lives ≤ 0 then (gameOver g1, { b with active := false })
      else
        ({ g1 with player := { g1.player with x := W / 2, y := H - 80 } },
          { b with active := false })
    else (g, b)
  else (g, b)

/-- The `bullets.forEach` of `Game.handleCollisions`, threading the game state
left to right and collecting the updated bullets in order. -/
def bulletsScan (W H : ℝ) : Game → List Bullet → Game × List Bullet
  | g, [] => (g, [])
  | g, b :: bs =>
    let r := bulletStep W H g b
    let rest := bulletsScan W H r.1 bs
    (rest.1, r.2 :: rest.2)

/-- `Game.handleCollisions()`: the tank-vs-tank phase followed by the bullet
phase (`syncHUD` is display only). -/
def handleCollisions (W H : ℝ) (g : Game) : Game :=
  let g1 := tankCollisionPhase W H g
  let r := bulletsScan W H g1 g1.bullets
  { r.1 with bullets := r.2 }

/-- Random draws consumed by one enemy in one `Game.update` tick: its AI draws
and its 1%-shot draw. -/
structure EnemyTickRand where
  ai : AIRand
  shoot : ℝ

/-- Random draws consumed by one `Game.update` call: one `AIRand` passed to the
player's `Tank.update` (unused on the player branch), the per-enemy draws by
roster index, and the spawn draws used if the roster empties. -/
structure UpdateRand where
  pai : AIRand
  enemyR : ℕ → EnemyTickRand
  spawn : ℕ → SpawnRand

/-- The `enemies.forEach` of `Game.update`: each enemy updates, then with
probability 1% shoots into the shared bullet list. -/
def enemiesScan (W H dt : ℝ) (input : Input) (r : ℕ → EnemyTickRand) :
    ℕ → List Tank → List Bullet → List Tank × List Bullet
  | _, [], bs => ([], bs)
  | i, e :: es, bs =>
    let e1 := Tank.update W H dt input (r i).ai e
    let p := if (r i).shoot < 0.01 then tryShoot e1 bs enemyTag else (e1, bs)
    let rest := enemiesScan W H dt input r (i + 1) es p.2
    (p.1 :: rest.1, rest.2)

/-- `Game.update(dt)` up to but not including the roster-refill check: update
the player, update the enemies (with their shot attempts), advance all
bullets, resolve collisions, and drop inactive bullets. -/
def updateCore (W H dt : ℝ) (input : Input) (r : UpdateRand) (g : Game) :
    Game :=
  let p := Tank.update W H dt input r.pai g.player
  let es := enemiesScan W H dt input r.enemyR 0 g.enemies g.bullets
  let bs := es.2.map (Bullet.update W H)
  let g1 := handleCollisions W H
    { g with player := p, enemies := es.1, bullets := bs }
  { g1 with bullets := g1.bullets.filter fun b => b.active }

/-- `Game.update(dt)`: the core tick, then respawn a fresh roster if the enemy
list emptied. -/
def Game.update (W H dt : ℝ) (input : Input) (r : UpdateRand) (g : Game) :
    Game :=
  let g1 := updateCore W H dt input r g
  if g1.enemies.length = 0 then
    { g1 with enemies := spawnEnemies W H r.spawn }
  else g1

/-- One animation frame of `Game.loop`: run `update(dt)` only while the
running flag is set (rendering, which this model omits, happens either
way). -/
def loopStep (W H dt : ℝ) (input : Input) (r : UpdateRand) (g : Game) :
    Game :=
  if g.running then Game.update W H dt input r g else g

/-- The window `keydown` handler bound in `Game.bindUI`: `Space` fires the
player's `tryShoot` into the shared bullet list, `KeyR` resets the game;
neither branch consults the running flag. -/
def onKeydown (W H : ℝ) (rs : ℕ → SpawnRand) (g : Game) (code : String) :
    Game :=
  let g1 :=
    if code = spaceKey then
      let p := tryShoot g.player g.bullets playerTag
      { g with player := p.1, bullets := p.2 }
    else g
  if code = keyR then reset W H rs g1 else g1

/-! ### Basic facts about the embedded operations -/

lemma clamp_bounds {lo hi : ℝ} (v : ℝ) (h : lo ≤ hi) :
    lo ≤ clamp v lo hi ∧ clamp v lo hi ≤ hi := by
  unfold clamp
  constructor
  · exact le_min (le_max_right v lo) h
  · exact min_le_right _ _

lemma handlePlayerInput_size (t : Tank) (input : Input) :
    (handlePlayerInput t input).size = t.size := by
  unfold handlePlayerInput
  dsimp only
  split <;> rfl

lemma handleAI_size (dt : ℝ) (r : AIRand) (t : Tank) :
    (handleAI dt r t).size = t.size := rfl

lemma spawnEnemies_length (W H : ℝ) (r : ℕ → SpawnRand) :
    (spawnEnemies W H r).length = ENEMY_COUNT := by
  simp [spawnEnemies]

lemma tankCollisionScan_length (p : Tank) (es : List Tank) :
    (tankCollisionScan p es).1.length = es.length := by
  induction es with
  | nil => rfl
  | cons e es ih =>
    unfold tankCollisionScan
    split <;> simpa using ih

lemma tankCollisionScan_not_collided (p : Tank) (es : List Tank)
    (h : (tankCollisionScan p es).2.1 = false) :
    tankCollisionScan p es = (es, false, 0, 0) := by
  induction es with
  | nil => rfl
  | cons e es ih =>
    unfold tankCollisionScan at h ⊢
    split at h
    · simp at h
    · rename_i hmiss
      simp only at h
      rw [if_neg hmiss, ih h]

lemma bulletEnemyScan_false (bx bY : ℝ) (es : List Tank) :
    bulletEnemyScan bx bY false es = (es, false, 0, 0) := by
  induction es with
  | nil => rfl
  | cons e es ih =>
    unfold bulletEnemyScan
    rw [if_neg (by simp)]
    simp [ih]

lemma bulletEnemyScan_score_le (bx bY : ℝ) (act : Bool) (es : List Tank) :
    (bulletEnemyScan bx bY act es).2.2.1 ≤ 100 := by
  induction es generalizing act with
  | nil => simp [bulletEnemyScan]
  | cons e es ih =>
    unfold bulletEnemyScan
    split
    · simp [bulletEnemyScan_false]
    · simpa using ih act

lemma decide_pos_true {x : ℝ} (h : 0 < x) : decide ((0:ℝ) < x) = true :=
  decide_eq_true h

lemma decide_pos_false {x : ℝ} (h : ¬ (0:ℝ) < x) : decide ((0:ℝ) < x) = false :=
  decide_eq_false h

lemma mem_posFilter {l : List Tank} :
    ∀ e ∈ (l.filter fun e => decide (0 < e.x)), (0:ℝ) < e.x := by
  intro e he
  rw [List.mem_filter] at he
  exact of_decide_eq_true he.2

lemma tankCollisionScan_conservation (p : Tank) (es : List Tank)
    (hpos : ∀ e ∈ es, (0:ℝ) < e.x) :
    (tankCollisionScan p es).2.2.1 +
      100 * (((tankCollisionScan p es).1.filter fun e => decide (0 < e.x)).length) =
      100 * es.length := by
  induction es with
  | nil => rfl
  | cons e es ih =>
    have hh : ∀ x ∈ es, (0:ℝ) < x.x := fun x hx => hpos x (List.mem_cons_of_mem _ hx)
    have he : (0:ℝ) < e.x := hpos e (List.mem_cons_self e es)
    unfold tankCollisionScan
    split
    · have hdrop : (decide ((0:ℝ) < ({ e with x := -9999 } : Tank).x)) = false := by
        apply decide_pos_false
        norm_num
      simp only [List.filter_cons, hdrop]
      simp only [Bool.false_eq_true, if_false, List.length_cons]
      have := ih hh
      omega
    · have hkeep : (decide ((0:ℝ) < e.x)) = true := decide_pos_true he
      simp only [List.filter_cons, hkeep, if_true, List.length_cons]
      have := ih hh
      omega

lemma bulletEnemyScan_conservation (bx bY : ℝ) (act : Bool) (es : List Tank)
    (hpos : ∀ e ∈ es, (0:ℝ) < e.x) :
    (bulletEnemyScan bx bY act es).2.2.1 +
      100 * (((bulletEnemyScan bx bY act es).1.filter fun e => decide (0 < e.x)).length) =
      100 * es.length := by
  induction es generalizing act with
  | nil => simp [bulletEnemyScan]
  | cons e es ih =>
    have hh : ∀ x ∈ es, (0:ℝ) < x.x := fun x hx => hpos x (List.mem_cons_of_mem _ hx)
    have he : (0:ℝ) < e.x := hpos e (List.mem_cons_self e es)
    unfold bulletEnemyScan
    split
    · have hdrop : (decide ((0:ℝ) < ({ e with x := -9999 } : Tank).x)) = false := by
        apply decide_pos_false
        norm_num
      simp only [List.filter_cons, hdrop]
      simp only [Bool.false_eq_true, if_false, List.length_cons]
      have := ih false hh
      omega
    · have hkeep : (decide ((0:ℝ) < e.x)) = true := decide_pos_true he
      simp only [List.filter_cons, hkeep, if_true, List.length_cons]
      have := ih act hh
      omega

lemma tankCollisionPhase_bullets (W H : ℝ) (g : Game) :
    (tankCollisionPhase W H g).bullets = g.bullets := by
  unfold tankCollisionPhase
  dsimp only
  split
  · split <;> rfl
  · rfl

lemma tankCollisionPhase_score (W H : ℝ) (g : Game) :
    (tankCollisionPhase W H g).score =
      g.score + (tankCollisionScan g.player g.enemies).2.2.1 := by
  unfold tankCollisionPhase
  dsimp only
  split
  · split <;> rfl
  · rfl

lemma tankCollisionPhase_lives (W H : ℝ) (g : Game) :
    (tankCollisionPhase W H g).lives =
      g.lives -
        (if (tankCollisionScan g.player g.enemies).2.1 = true then 1 else 0) := by
  unfold tankCollisionPhase
  dsimp only
  split
  · split <;> rfl
  · simp

lemma tankCollisionPhase_P (W H : ℝ) (g : Game)
    (hP : g.lives ≤ 0 → g.running = false) :
    (tankCollisionPhase W H g).lives ≤ 0 →
      (tankCollisionPhase W H g).running = false := by
  unfold tankCollisionPhase
  dsimp only
  split
  · split
    · intro _
      rfl
    · rename_i hl
      intro h
      exact absurd h hl
  · exact hP

lemma tankCollisionPhase_conservation (W H : ℝ) (g : Game)
    (hpos : ∀ e ∈ g.enemies, (0:ℝ) < e.x) :
    (tankCollisionPhase W H g).score +
        100 * (tankCollisionPhase W H g).enemies.length =
      g.score + 100 * g.enemies.length := by
  unfold tankCollisionPhase
  dsimp only
  split
  · have key := tankCollisionScan_conservation g.player g.enemies hpos
    split <;> (dsimp only [gameOver]; omega)
  · rename_i h
    have hid := tankCollisionScan_not_collided g.player g.enemies (by
      cases hb : (tankCollisionScan g.player g.enemies).2.1
      · rfl
      · exact absurd hb h)
    rw [hid]
    simp

lemma tankCollisionPhase_pos (W H : ℝ) (g : Game)
    (hpos : ∀ e ∈ g.enemies, (0:ℝ) < e.x) :
    ∀ e ∈ (tankCollisionPhase W H g).enemies, (0:ℝ) < e.x := by
  unfold tankCollisionPhase
  dsimp only
  split
  · split <;> (dsimp only [gameOver]; exact mem_posFilter)
  · rename_i h
    have hid := tankCollisionScan_not_collided g.player g.enemies (by
      cases hb : (tankCollisionScan g.player g.enemies).2.1
      · rfl
      · exact absurd hb h)
    rw [hid]
    exact hpos

lemma bulletStep_score_mono (W H : ℝ) (g : Game) (b : Bullet) :
    g.score ≤ (bulletStep W H g b).1.score := by
  unfold bulletStep
  dsimp only
  split_ifs <;> simp [gameOver]

lemma bulletStep_lives_le (W H : ℝ) (g : Game) (b : Bullet) :
    (bulletStep W H g b).1.lives ≤ g.lives := by
  unfold bulletStep
  dsimp only
  split_ifs <;> simp [gameOver]

lemma bulletStep_lives_lb (W H : ℝ) (g : Game) (b : Bullet) :
    g.lives - 1 ≤ (bulletStep W H g b).1.lives := by
  unfold bulletStep
  dsimp only
  split_ifs <;> simp [gameOver]

lemma bulletStep_lives_eq_of_not_enemy (W H : ℝ) (g : Game) (b : Bullet)
    (h : ¬ b.owner = enemyTag) :
    (bulletStep W H g b).1.lives = g.lives := by
  unfold bulletStep
  dsimp only
  split_ifs <;> first | rfl | exact absurd (by assumption) h

lemma bulletStep_P (W H : ℝ) (g : Game) (b : Bullet)
    (hP : g.lives ≤ 0 → g.running = false) :
    (bulletStep W H g b).1.lives ≤ 0 → (bulletStep W H g b).1.running = false := by
  unfold bulletStep
  dsimp only
  split_ifs <;> first
    | exact hP
    | (intro _; rfl)
    | (rename_i hl; intro hcon; exact absurd hcon hl)

lemma bulletStep_pos (W H : ℝ) (g : Game) (b : Bullet)
    (hpos : ∀ e ∈ g.enemies, (0:ℝ) < e.x) :
    ∀ e ∈ (bulletStep W H g b).1.enemies, (0:ℝ) < e.x := by
  unfold bulletStep
  dsimp only
  split_ifs <;> first | exact hpos | exact mem_posFilter

lemma bulletStep_conservation (W H : ℝ) (g : Game) (b : Bullet)
    (hpos : ∀ e ∈ g.enemies, (0:ℝ) < e.x) :
    (bulletStep W H g b).1.score + 100 * (bulletStep W H g b).1.enemies.length =
      g.score + 100 * g.enemies.length := by
  unfold bulletStep
  dsimp only
  split_ifs <;> first
    | rfl
    | (dsimp only [gameOver]; rfl)
    | (have key := bulletEnemyScan_conservation b.x b.y true g.enemies hpos
       dsimp only
       omega)

lemma bulletStep_inactive (W H : ℝ) (g : Game) (b : Bullet)
    (hb : b.active = false) : bulletStep W H g b = (g, b) := by
  simp [bulletStep, hb]

lemma bulletStep_active_mono (W H : ℝ) (g : Game) (b : Bullet) :
    (bulletStep W H g b).2.active = true → b.active = true := by
  intro h
  by_contra hc
  have hb : b.active = false := by
    cases hbb : b.active
    · rfl
    · exact absurd hbb hc
  rw [bulletStep_inactive W H g b hb] at h
  exact hc h

lemma bulletStep_bullets (W H : ℝ) (g : Game) (b : Bullet) :
    (bulletStep W H g b).1.bullets = g.bullets := by
  unfold bulletStep
  dsimp only
  split_ifs <;> rfl

lemma bulletsScan_score_mono (W H : ℝ) (bs : List Bullet) (g : Game) :
    g.score ≤ (bulletsScan W H g bs).1.score := by
  induction bs generalizing g with
  | nil => simp [bulletsScan]
  | cons b bs ih =>
    unfold bulletsScan
    dsimp only
    exact le_trans (bulletStep_score_mono W H g b) (ih _)

lemma bulletsScan_lives_le (W H : ℝ) (bs : List Bullet) (g : Game) :
    (bulletsScan W H g bs).1.lives ≤ g.lives := by
  induction bs generalizing g with
  | nil => simp [bulletsScan]
  | cons b bs ih =>
    unfold bulletsScan
    dsimp only
    exact le_trans (ih _) (bulletStep_lives_le W H g b)

lemma bulletsScan_lives_lb (W H : ℝ) (bs : List Bullet) (g : Game) :
    g.lives - (bs.countP fun b => decide (b.owner = enemyTag)) ≤
      (bulletsScan W H g bs).1.lives := by
  induction bs generalizing g with
  | nil => simp [bulletsScan]
  | cons b bs ih =>
    unfold bulletsScan
    dsimp only
    have h2 := ih (bulletStep W H g b).1
    by_cases hb : b.owner = enemyTag
    · have hpb : (decide (b.owner = enemyTag)) = true := decide_eq_true hb
      have h1 := bulletStep_lives_lb W H g b
      simp only [List.countP_cons, hpb, if_true]
      push_cast at h2 ⊢
      omega
    · have hpb : (decide (b.owner = enemyTag)) = false := decide_eq_false hb
      have h1 := bulletStep_lives_eq_of_not_enemy W H g b hb
      simp only [List.countP_cons, hpb, Bool.false_eq_true, if_false, Nat.add_zero]
      push_cast at h2 ⊢
      omega

lemma bulletsScan_P (W H : ℝ) (bs : List Bullet) (g : Game)
    (hP : g.lives ≤ 0 → g.running = false) :
    (bulletsScan W H g bs).1.lives ≤ 0 →
      (bulletsScan W H g bs).1.running = false := by
  induction bs generalizing g with
  | nil => simpa [bulletsScan] using hP
  | cons b bs ih =>
    unfold bulletsScan
    dsimp only
    exact ih _ (bulletStep_P W H g b hP)

lemma bulletsScan_pos (W H : ℝ) (bs : List Bullet) (g : Game)
    (hpos : ∀ e ∈ g.enemies, (0:ℝ) < e.x) :
    ∀ e ∈ (bulletsScan W H g bs).1.enemies, (0:ℝ) < e.x := by
  induction bs generalizing g with
  | nil => simpa [bulletsScan] using hpos
  | cons b bs ih =>
    unfold bulletsScan
    dsimp only
    exact ih _ (bulletStep_pos W H g b hpos)

lemma bulletsScan_conservation (W H : ℝ) (bs : List Bullet) (g : Game)
    (hpos : ∀ e ∈ g.enemies, (0:ℝ) < e.x) :
    (bulletsScan W H g bs).1.score +
        100 * (bulletsScan W H g bs).1.enemies.length =
      g.score + 100 * g.enemies.length := by
  induction bs generalizing g with
  | nil => simp [bulletsScan]
  | cons b bs ih =>
    unfold bulletsScan
    dsimp only
    rw [ih _ (bulletStep_pos W H g b hpos)]
    exact bulletStep_conservation W H g b hpos

lemma bulletsScan_forall_two (W H : ℝ) (bs : List Bullet) (g : Game) :
    List.Forall₂ (fun a c => c.active = true → a.active = true) bs
      (bulletsScan W H g bs).2 := by
  induction bs generalizing g with
  | nil => exact List.Forall₂.nil
  | cons b bs ih =>
    unfold bulletsScan
    dsimp only
    exact List.Forall₂.cons (bulletStep_active_mono W H g b) (ih _)

lemma tankCollisionPhase_nil (W H : ℝ) (g : Game) (he : g.enemies = []) :
    tankCollisionPhase W H g = g := by
  obtain ⟨p, es, bs, pa, sc, li, ru⟩ := g
  simp only [Game.enemies] at he
  subst he
  simp [tankCollisionPhase, tankCollisionScan]

lemma handleCollisions_score_mono (W H : ℝ) (g : Game) :
    g.score ≤ (handleCollisions W H g).score := by
  unfold handleCollisions
  dsimp only
  calc g.score ≤ (tankCollisionPhase W H g).score := by
        rw [tankCollisionPhase_score]
        exact Nat.le_add_right _ _
    _ ≤ _ := bulletsScan_score_mono W H _ _

lemma handleCollisions_lives_le (W H : ℝ) (g : Game) :
    (handleCollisions W H g).lives ≤ g.lives := by
  unfold handleCollisions
  dsimp only
  calc (bulletsScan W H (tankCollisionPhase W H g) (tankCollisionPhase W H g).bullets).1.lives
      ≤ (tankCollisionPhase W H g).lives := bulletsScan_lives_le W H _ _
    _ ≤ g.lives := by
        rw [tankCollisionPhase_lives]
        split <;> omega

lemma handleCollisions_lives_lb (W H : ℝ) (g : Game) :
    g.lives - 1 - (g.bullets.countP fun b => decide (b.owner = enemyTag)) ≤
      (handleCollisions W H g).lives := by
  unfold handleCollisions
  dsimp only
  rw [tankCollisionPhase_bullets]
  have h1 := bulletsScan_lives_lb W H g.bullets (tankCollisionPhase W H g)
  rw [tankCollisionPhase_lives] at h1
  refine le_trans ?_ h1
  split <;> omega

lemma handleCollisions_P (W H : ℝ) (g : Game)
    (hP : g.lives ≤ 0 → g.running = false) :
    (handleCollisions W H g).lives ≤ 0 →
      (handleCollisions W H g).running = false := by
  unfold handleCollisions
  dsimp only
  exact bulletsScan_P W H _ _ (tankCollisionPhase_P W H g hP)

lemma handleCollisions_conservation (W H : ℝ) (g : Game)
    (hpos : ∀ e ∈ g.enemies, (0:ℝ) < e.x) :
    (handleCollisions W H g).score +
        100 * (handleCollisions W H g).enemies.length =
      g.score + 100 * g.enemies.length := by
  unfold handleCollisions
  dsimp only
  rw [bulletsScan_conservation W H _ _ (tankCollisionPhase_pos W H g hpos)]
  exact tankCollisionPhase_conservation W H g hpos

lemma handleCollisions_bullets_forall_two (W H : ℝ) (g : Game) :
    List.Forall₂ (fun a c => c.active = true → a.active = true) g.bullets
      (handleCollisions W H g).bullets := by
  unfold handleCollisions
  dsimp only
  rw [tankCollisionPhase_bullets]
  exact bulletsScan_forall_two W H g.bullets (tankCollisionPhase W H g)

lemma updateCore_score_mono (W H dt : ℝ) (input : Input) (r : UpdateRand)
    (g : Game) : g.score ≤ (updateCore W H dt input r g).score := by
  unfold updateCore
  dsimp only
  have h := handleCollisions_score_mono W H
    { g with
      player := Tank.update W H dt input r.pai g.player,
      enemies := (enemiesScan W H dt input r.enemyR 0 g.enemies g.bullets).1,
      bullets :=
        (enemiesScan W H dt input r.enemyR 0 g.enemies g.bullets).2.map
          (Bullet.update W H) }
  exact h

lemma update_score_mono (W H dt : ℝ) (input : Input) (r : UpdateRand)
    (g : Game) : g.score ≤ (Game.update W H dt input r g).score := by
  unfold Game.update
  dsimp only
  split
  · exact updateCore_score_mono W H dt input r g
  · exact updateCore_score_mono W H dt input r g

lemma updateCore_enemies_nil (W H dt : ℝ) (input : Input) (r : UpdateRand)
    (g : Game) (he : g.enemies = []) (hb : g.bullets = []) :
    (updateCore W H dt input r g).enemies = [] := by
  unfold updateCore
  dsimp only
  rw [he, hb]
  show (handleCollisions W H _).enemies = []
  unfold handleCollisions
  dsimp only
  rw [tankCollisionPhase_nil W H _ rfl]
  rfl

lemma bulletStep_enemy_hit_dead (W H : ℝ) (g : Game) (b : Bullet)
    (hb : b.active = true) (ho : b.owner = enemyTag)
    (hd : hypot (b.x - g.player.x) (b.y - g.player.y) < g.player.size / 2)
    (hl : g.lives - 1 ≤ 0) :
    bulletStep W H g b =
      ({ g with
          particles := g.particles + 10,
          lives := g.lives - 1,
          running := false },
        { b with active := false }) := by
  simp [bulletStep, hb, ho, enemyTag, playerTag, hd, gameOver]
  omega

lemma bulletStep_enemy_hit_alive (W H : ℝ) (g : Game) (b : Bullet)
    (hb : b.active = true) (ho : b.owner = enemyTag)
    (hd : hypot (b.x - g.player.x) (b.y - g.player.y) < g.player.size / 2)
    (hl : ¬ g.lives - 1 ≤ 0) :
    bulletStep W H g b =
      ({ g with
          particles := g.particles + 10,
          lives := g.lives - 1,
          player := { g.player with x := W / 2, y := H - 80 } },
        { b with active := false }) := by
  simp [bulletStep, hb, ho, enemyTag, playerTag, hd]
  intro h
  omega

lemma update_lives (W H dt : ℝ) (input : Input) (r : UpdateRand) (g : Game) :
    (Game.update W H dt input r g).lives = (updateCore W H dt input r g).lives := by
  unfold Game.update
  dsimp only
  split <;> rfl

lemma update_player (W H dt : ℝ) (input : Input) (r : UpdateRand) (g : Game) :
    (Game.update W H dt input r g).player = (updateCore W H dt input r g).player := by
  unfold Game.update
  dsimp only
  split <;> rfl

lemma updateCore_lives (W H dt : ℝ) (input : Input) (r : UpdateRand) (g : Game) :
    (updateCore W H dt input r g).lives =
      (handleCollisions W H
        { g with
          player := Tank.update W H dt input r.pai g.player,
          enemies := (enemiesScan W H dt input r.enemyR 0 g.enemies g.bullets).1,
          bullets :=
            (enemiesScan W H dt input r.enemyR 0 g.enemies g.bullets).2.map
              (Bullet.update W H) }).lives := rfl

lemma updateCore_player (W H dt : ℝ) (input : Input) (r : UpdateRand) (g : Game) :
    (updateCore W H dt input r g).player =
      (handleCollisions W H
        { g with
          player := Tank.update W H dt input r.pai g.player,
          enemies := (enemiesScan W H dt input r.enemyR 0 g.enemies g.bullets).1,
          bullets :=
            (enemiesScan W H dt input r.enemyR 0 g.enemies g.bullets).2.map
              (Bullet.update W H) }).player := rfl

/-! ### Concrete states used to exercise the operations -/

/-- No key held. -/
def input0 : Input := ⟨false, false, false, false⟩

/-- Only `ArrowRight` held. -/
def inputRight : Input := ⟨false, false, false, true⟩

/-- A fixed assignment for every random draw of one tick (every `Math.random()`
result is 0 except the enemy shoot draws, which are 1 so no enemy fires). -/
def rand0 : UpdateRand := ⟨⟨0, 0, 0, 0⟩, fun _ => ⟨⟨0, 0, 0, 0⟩, 1⟩, fun _ => ⟨0, 0, 0⟩⟩

/-- The player tank at its spawn point `(WIDTH/2, HEIGHT-80)` for a 800x600
canvas. -/
def p0 : Tank := mkTank 400 520 true

/-- An enemy bullet heading right, placed 6 pixels left of the player spawn:
after one `Bullet.update` it sits exactly on the player. -/
def bHit : Bullet := mkBullet 394 520 0 enemyTag

/-- An enemy bullet sitting exactly on the player spawn point. -/
def bAtPlayer : Bullet := mkBullet 400 520 0 enemyTag

lemma player_update_idle :
    Tank.update 800 600 16 input0 ⟨0, 0, 0, 0⟩ p0 = p0 := by
  simp [Tank.update, handlePlayerInput, playerDX, playerDY, input0, p0, mkTank, clamp]
  norm_num

lemma bHit_update : Bullet.update 800 600 bHit = bAtPlayer := by
  simp [Bullet.update, bHit, bAtPlayer, mkBullet, BULLET_SPEED]
  norm_num

lemma bAtPlayer_hits (t : Tank) (hx : t.x = 400) (hy : t.y = 520)
    (hs : t.size = 36) :
    hypot (bAtPlayer.x - t.x) (bAtPlayer.y - t.y) < t.size / 2 := by
  rw [hx, hy, hs]
  show Real.sqrt _ < _
  norm_num [bAtPlayer, mkBullet]

lemma handleCollisions_nil (W H : ℝ) (g : Game) (he : g.enemies = [])
    (hb : g.bullets = []) : handleCollisions W H g = g := by
  unfold handleCollisions
  dsimp only
  rw [tankCollisionPhase_nil W H g he, hb]
  show ({ g with bullets := [] } : Game) = g
  rw [← hb]

lemma twoHits_lives (g : Game) (hp : g.player = p0) (he : g.enemies = [])
    (hb : g.bullets = [bAtPlayer, bAtPlayer]) :
    (handleCollisions 800 600 g).lives = g.lives - 2 := by
  unfold handleCollisions
  dsimp only
  rw [tankCollisionPhase_nil 800 600 g he, hb]
  unfold bulletsScan
  dsimp only
  have hhit1 : hypot (bAtPlayer.x - g.player.x) (bAtPlayer.y - g.player.y) <
      g.player.size / 2 :=
    bAtPlayer_hits g.player (by rw [hp]; rfl) (by rw [hp]; rfl) (by rw [hp]; rfl)
  have hhit2 : hypot (bAtPlayer.x - 800 / 2) (bAtPlayer.y - (600 - 80)) <
      g.player.size / 2 := by
    rw [hp]
    show Real.sqrt _ < _
    norm_num [bAtPlayer, mkBullet, p0, mkTank]
  by_cases hl : g.lives - 1 ≤ 0
  · rw [bulletStep_enemy_hit_dead 800 600 g bAtPlayer rfl rfl hhit1 hl]
    dsimp only
    unfold bulletsScan
    dsimp only
    rw [bulletStep_enemy_hit_dead 800 600 _ bAtPlayer rfl rfl
      (by dsimp only; exact hhit1) (by dsimp only; omega)]
    dsimp only
    unfold bulletsScan
    dsimp only
    omega
  · rw [bulletStep_enemy_hit_alive 800 600 g bAtPlayer rfl rfl hhit1 hl]
    dsimp only
    unfold bulletsScan
    dsimp only
    by_cases hl2 : g.lives - 1 - 1 ≤ 0
    · rw [bulletStep_enemy_hit_dead 800 600 _ bAtPlayer rfl rfl
        (by dsimp only; exact hhit2) (by dsimp only; omega)]
      dsimp only
      unfold bulletsScan
      dsimp only
      omega
    · rw [bulletStep_enemy_hit_alive 800 600 _ bAtPlayer rfl rfl
        (by dsimp only; exact hhit2) (by dsimp only; omega)]
      dsimp only
      unfold bulletsScan
      dsimp only
      omega

lemma twoBullets_update_lives (L : ℤ) :
    (Game.update 800 600 16 input0 rand0
        (Game.mk p0 [] [bHit, bHit] 0 0 L true)).lives = L - 2 := by
  rw [update_lives, updateCore_lives]
  refine (twoHits_lives _ ?_ ?_ ?_).trans ?_
  · show Tank.update 800 600 16 input0 rand0.pai p0 = p0
    exact player_update_idle
  · rfl
  · show List.map (Bullet.update 800 600) [bHit, bHit] = [bAtPlayer, bAtPlayer]
    simp [bHit_update]
  · rfl

lemma player_update_right :
    (Tank.update 800 600 16 inputRight ⟨0, 0, 0, 0⟩ p0).x = 402.6 := by
  simp [Tank.update, handlePlayerInput, playerDX, playerDY, inputRight, p0,
    mkTank, clamp, hypot, PLAYER_SPEED]
  norm_num [Real.sqrt_one]

lemma updateCore_nil_eval (W H dt : ℝ) (input : Input) (r : UpdateRand)
    (g : Game) (he : g.enemies = []) (hb : g.bullets = []) :
    updateCore W H dt input r g =
      { g with
        player := Tank.update W H dt input r.pai g.player,
        enemies := [],
        bullets := [] } := by
  have hmid := handleCollisions_nil W H
    { g with
      player := Tank.update W H dt input r.pai g.player,
      enemies := ([] : List Tank),
      bullets := ([] : List Bullet) } rfl rfl
  unfold updateCore
  dsimp only
  rw [he, hb]
  rw [show (enemiesScan W H dt input r.enemyR 0 ([] : List Tank)
      ([] : List Bullet)) = ([], []) from rfl]
  dsimp only [List.map_nil]
  rw [hmid]
  rfl

lemma update_nil_eval (W H dt : ℝ) (input : Input) (r : UpdateRand)
    (g : Game) (he : g.enemies = []) (hb : g.bullets = []) :
    Game.update W H dt input r g =
      { g with
        player := Tank.update W H dt input r.pai g.player,
        enemies := spawnEnemies W H r.spawn,
        bullets := [] } := by
  unfold Game.update
  dsimp only
  rw [updateCore_nil_eval W H dt input r g he hb]
  simp

lemma bulletEnemyScan_act_iff (bx bY : ℝ) (es : List Tank) :
    (bulletEnemyScan bx bY true es).2.1 = false ↔
      ∃ e ∈ es, hypot (bx - e.x) (bY - e.y) < e.size / 2 := by
  induction es with
  | nil => simp [bulletEnemyScan]
  | cons e es ih =>
    unfold bulletEnemyScan
    split
    · rename_i h
      dsimp only
      rw [bulletEnemyScan_false]
      constructor
      · intro _
        exact ⟨e, List.mem_cons_self e es, h.2⟩
      · intro _
        rfl
    · rename_i h
      dsimp only
      rw [ih]
      constructor
      · rintro ⟨e2, he2, hd⟩
        exact ⟨e2, List.mem_cons_of_mem _ he2, hd⟩
      · rintro ⟨e2, he2, hd⟩
        rcases List.mem_cons.mp he2 with rfl | hmem
        · exact absurd ⟨rfl, hd⟩ h
        · exact ⟨e2, hmem, hd⟩

lemma bulletStep_deactivate_iff (W H : ℝ) (g : Game) (b : Bullet)
    (hb : b.active = true) :
    (bulletStep W H g b).2.active = false ↔
      ((b.owner = playerTag ∧
          ∃ e ∈ g.enemies, hypot (b.x - e.x) (b.y - e.y) < e.size / 2) ∨
        (b.owner = enemyTag ∧
          hypot (b.x - g.player.x) (b.y - g.player.y) < g.player.size / 2)) := by
  unfold bulletStep
  dsimp only
  rw [if_neg (by simp [hb])]
  by_cases hop : b.owner = playerTag
  · rw [if_pos hop]
    dsimp only
    rw [bulletEnemyScan_act_iff]
    simp [hop, playerTag, enemyTag]
  · rw [if_neg hop]
    by_cases hoe : b.owner = enemyTag
    · rw [if_pos hoe]
      by_cases hd : hypot (b.x - g.player.x) (b.y - g.player.y) <
          g.player.size / 2
      · rw [if_pos hd]
        split <;> (dsimp only; simp [hop, hoe, hd, playerTag, enemyTag])
      · rw [if_neg hd]
        dsimp only
        simp [hb, hop, hoe, hd, playerTag, enemyTag]
    · rw [if_neg hoe]
      dsimp only
      simp [hb, hop, hoe]

lemma bulletsScan_steps (W H : ℝ) (bs : List Bullet) (g : Game) :
    List.Forall₂ (fun a c => ∃ g2, (bulletStep W H g2 a).2 = c) bs
      (bulletsScan W H g bs).2 := by
  induction bs generalizing g with
  | nil => exact List.Forall₂.nil
  | cons b bs ih =>
    unfold bulletsScan
    dsimp only
    exact List.Forall₂.cons ⟨g, rfl⟩ (ih _)

lemma handleCollisions_bullets_steps (W H : ℝ) (g : Game) :
    List.Forall₂ (fun a c => ∃ g2, (bulletStep W H g2 a).2 = c) g.bullets
      (handleCollisions W H g).bullets := by
  unfold handleCollisions
  dsimp only
  rw [tankCollisionPhase_bullets]
  exact bulletsScan_steps W H g.bullets (tankCollisionPhase W H g)

/-! ### The claims -/

/-- C1 (amended).  Per tick, the tank-collision phase of `handleCollisions`
decreases lives by exactly 1 when at least one enemy overlaps the player and
by 0 otherwise, regardless of how many enemies collide simultaneously; over
the whole collision pass lives never increase, and they decrease by at most
1 plus the number of enemy-owned bullets, each enemy-bullet hit costing one
further life in the same tick. -/
theorem c1_lives_decrement_structure (W H : ℝ) (g : Game) :
    (tankCollisionPhase W H g).lives =
      g.lives -
        (if (tankCollisionScan g.player g.enemies).2.1 = true then 1 else 0) ∧
    (handleCollisions W H g).lives ≤ g.lives ∧
    g.lives - 1 - (g.bullets.countP fun b => decide (b.owner = enemyTag)) ≤
      (handleCollisions W H g).lives :=
  ⟨tankCollisionPhase_lives W H g, handleCollisions_lives_le W H g,
    handleCollisions_lives_lb W H g⟩

/-- C1 counterexample.  A single `update(dt)` call in which two enemy bullets
both reach the player decreases the lives counter from 3 to 1, i.e. by 2 in
one tick, refuting "decreases by at most 1 in total". -/
theorem c1_counterexample :
    (Game.mk p0 [] [bHit, bHit] 0 0 3 true).lives = 3 ∧
    (Game.update 800 600 16 input0 rand0
        (Game.mk p0 [] [bHit, bHit] 0 0 3 true)).lives = 1 := by
  refine ⟨rfl, ?_⟩
  rw [twoBullets_update_lives]
  norm_num

/-- C2 (amended).  There is no clamping of the lives counter: within one
collision pass lives drop by at most 1 (tank phase) plus one per enemy-owned
bullet, which can take the counter below zero; `reset()` restores lives to
`PLAYER_MAX_LIVES = 3`, a non-negative value. -/
theorem c2_lives_bound_and_reset (W H : ℝ) (rs : ℕ → SpawnRand) (g : Game) :
    g.lives - 1 - (g.bullets.countP fun b => decide (b.owner = enemyTag)) ≤
      (handleCollisions W H g).lives ∧
    (reset W H rs g).lives = PLAYER_MAX_LIVES ∧
    (0:ℤ) ≤ PLAYER_MAX_LIVES :=
  ⟨handleCollisions_lives_lb W H g, rfl, by norm_num [PLAYER_MAX_LIVES]⟩

/-- C2 counterexample.  From a reachable state with 1 life and two incoming
enemy bullets, one `update(dt)` call leaves the lives counter at -1: the
game-over transition does not clamp lives at zero. -/
theorem c2_counterexample :
    (Game.update 800 600 16 input0 rand0
        (Game.mk p0 [] [bHit, bHit] 0 0 1 true)).lives = -1 ∧
    (Game.update 800 600 16 input0 rand0
        (Game.mk p0 [] [bHit, bHit] 0 0 1 true)).lives < 0 := by
  have h := twoBullets_update_lives 1
  norm_num at h
  exact ⟨h, by rw [h]; norm_num⟩

/-- C3 (amended).  When a collision pass takes lives to zero or below it also
clears the running flag (given the invariant that a non-positive lives count
already implies not-running), and the frame loop performs no update while the
flag is down; but game-over is not terminal until `reset()` alone: `start()`
(wired to the start button and to clicking the canvas) sets running back to
true, and `togglePause()` flips it, so either resumes updates without a
reset. -/
theorem c3_game_over_gate (W H dt : ℝ) (input : Input) (r : UpdateRand)
    (g : Game) :
    ((g.lives ≤ 0 → g.running = false) →
      (handleCollisions W H g).lives ≤ 0 →
        (handleCollisions W H g).running = false) ∧
    (g.running = false → loopStep W H dt input r g = g) ∧
    (start g).running = true ∧
    (togglePause g).running = !g.running := by
  refine ⟨handleCollisions_P W H g, ?_, rfl, rfl⟩
  intro h
  unfold loopStep
  rw [h]
  simp

/-- C3 witness: a collision pass that drops the last life clears the running
flag, a non-running game is unchanged by the frame loop, and `start` raises
the flag. -/
theorem c3_witness :
    ((handleCollisions 800 600 (Game.mk p0 [] [bAtPlayer] 0 0 1 true)).lives ≤ 0 →
      (handleCollisions 800 600 (Game.mk p0 [] [bAtPlayer] 0 0 1 true)).running =
        false) ∧
    loopStep 800 600 16 input0 rand0 (Game.mk p0 [] [] 0 0 0 false) =
      Game.mk p0 [] [] 0 0 0 false ∧
    (start (Game.mk p0 [] [] 0 0 0 false)).running = true :=
  ⟨(c3_game_over_gate 800 600 16 input0 rand0
      (Game.mk p0 [] [bAtPlayer] 0 0 1 true)).1
        (fun h => absurd h (by norm_num)),
    (c3_game_over_gate 800 600 16 input0 rand0
      (Game.mk p0 [] [] 0 0 0 false)).2.1 rfl,
    (c3_game_over_gate 800 600 16 input0 rand0
      (Game.mk p0 [] [] 0 0 0 false)).2.2.1⟩

/-- C3 counterexample.  From a game-over state (running = false, lives = 0),
calling `start()` — not `reset()` — sets running = true, and the next frame
then moves the player again: game-over does not halt updates until `reset()`
is called. -/
theorem c3_counterexample :
    (Game.mk p0 [] [] 0 0 0 false).running = false ∧
    (Game.mk p0 [] [] 0 0 0 false).lives = 0 ∧
    (start (Game.mk p0 [] [] 0 0 0 false)).running = true ∧
    (loopStep 800 600 16 inputRight rand0
        (start (Game.mk p0 [] [] 0 0 0 false))).player.x ≠
      (Game.mk p0 [] [] 0 0 0 false).player.x := by
  refine ⟨rfl, rfl, rfl, ?_⟩
  have h1 : loopStep 800 600 16 inputRight rand0
      (start (Game.mk p0 [] [] 0 0 0 false)) =
      Game.update 800 600 16 inputRight rand0
        (start (Game.mk p0 [] [] 0 0 0 false)) := by
    unfold loopStep
    exact if_pos rfl
  rw [h1, update_nil_eval 800 600 16 inputRight rand0 _ rfl rfl]
  show (Tank.update 800 600 16 inputRight ⟨0, 0, 0, 0⟩ p0).x ≠ p0.x
  rw [player_update_right]
  show (402.6 : ℝ) ≠ 400
  norm_num

/-- C4.  After any `Tank.update` — player or enemy, any input and any random
draws — both coordinates lie in `[size/2, WIDTH - size/2] x [size/2,
HEIGHT - size/2]`, provided the sprite fits the playfield (`size ≤ WIDTH`,
`size ≤ HEIGHT`). -/
theorem c4_position_clamped (W H dt : ℝ) (input : Input) (r : AIRand)
    (t : Tank) (hW : t.size ≤ W) (hH : t.size ≤ H) :
    t.size / 2 ≤ (Tank.update W H dt input r t).x ∧
    (Tank.update W H dt input r t).x ≤ W - t.size / 2 ∧
    t.size / 2 ≤ (Tank.update W H dt input r t).y ∧
    (Tank.update W H dt input r t).y ≤ H - t.size / 2 := by
  have hsize : (if t.isPlayer = true then handlePlayerInput t input
      else handleAI dt r t).size = t.size := by
    split
    · exact handlePlayerInput_size t input
    · rfl
  unfold Tank.update
  dsimp only
  rw [hsize]
  exact ⟨(clamp_bounds _ (by linarith)).1, (clamp_bounds _ (by linarith)).2,
    (clamp_bounds _ (by linarith)).1, (clamp_bounds _ (by linarith)).2⟩

/-- C4 witness: the idle player tank on a 800x600 canvas stays in bounds. -/
theorem c4_witness :
    p0.size ≤ (800:ℝ) ∧ p0.size ≤ (600:ℝ) ∧
    (p0.size / 2 ≤ (Tank.update 800 600 16 input0 ⟨0, 0, 0, 0⟩ p0).x ∧
      (Tank.update 800 600 16 input0 ⟨0, 0, 0, 0⟩ p0).x ≤ 800 - p0.size / 2 ∧
      p0.size / 2 ≤ (Tank.update 800 600 16 input0 ⟨0, 0, 0, 0⟩ p0).y ∧
      (Tank.update 800 600 16 input0 ⟨0, 0, 0, 0⟩ p0).y ≤ 600 - p0.size / 2) :=
  ⟨by norm_num [p0, mkTank], by norm_num [p0, mkTank],
    c4_position_clamped 800 600 16 input0 ⟨0, 0, 0, 0⟩ p0
      (by norm_num [p0, mkTank]) (by norm_num [p0, mkTank])⟩

/-- C5 (amended).  Whenever the net key direction `(dx, dy)` is nonzero — at
least one axis does not cancel — the player's per-tick displacement has
magnitude exactly `speed` (the direction vector is normalised); opposing keys
cancel, so "at least one key held" alone does not guarantee movement. -/
theorem c5_normalized_speed (t : Tank) (input : Input) (hs : 0 ≤ t.speed)
    (h : playerDX input ≠ 0 ∨ playerDY input ≠ 0) :
    hypot ((handlePlayerInput t input).x - t.x)
      ((handlePlayerInput t input).y - t.y) = t.speed := by
  have hd2 : 0 < playerDX input ^ 2 + playerDY input ^ 2 := by
    rcases h with h | h
    · exact add_pos_of_pos_of_nonneg (sq_pos_of_ne_zero h) (sq_nonneg _)
    · exact add_pos_of_nonneg_of_pos (sq_nonneg _) (sq_pos_of_ne_zero h)
  unfold handlePlayerInput
  dsimp only
  rw [if_pos h]
  dsimp only
  have e1 : t.x + playerDX input / hypot (playerDX input) (playerDY input) *
      t.speed - t.x =
      playerDX input / hypot (playerDX input) (playerDY input) * t.speed := by
    ring
  have e2 : t.y + playerDY input / hypot (playerDX input) (playerDY input) *
      t.speed - t.y =
      playerDY input / hypot (playerDX input) (playerDY input) * t.speed := by
    ring
  rw [e1, e2]
  unfold hypot
  have hlen2 : Real.sqrt (playerDX input ^ 2 + playerDY input ^ 2) ^ 2 =
      playerDX input ^ 2 + playerDY input ^ 2 := Real.sq_sqrt hd2.le
  have hlen0 : Real.sqrt (playerDX input ^ 2 + playerDY input ^ 2) ≠ 0 :=
    ne_of_gt (Real.sqrt_pos.mpr hd2)
  have key : (playerDX input / Real.sqrt (playerDX input ^ 2 + playerDY input ^ 2) *
        t.speed) ^ 2 +
      (playerDY input / Real.sqrt (playerDX input ^ 2 + playerDY input ^ 2) *
        t.speed) ^ 2 = t.speed ^ 2 := by
    field_simp
    ring
  rw [key]
  exact Real.sqrt_sq hs

/-- C5 witness: holding up+right (diagonal) and holding up alone (axial) both
move the player tank exactly `speed` per tick. -/
theorem c5_witness :
    playerDX ⟨true, false, false, true⟩ ≠ 0 ∧
    hypot ((handlePlayerInput p0 ⟨true, false, false, true⟩).x - p0.x)
      ((handlePlayerInput p0 ⟨true, false, false, true⟩).y - p0.y) = p0.speed ∧
    playerDY ⟨true, false, false, false⟩ ≠ 0 ∧
    hypot ((handlePlayerInput p0 ⟨true, false, false, false⟩).x - p0.x)
      ((handlePlayerInput p0 ⟨true, false, false, false⟩).y - p0.y) = p0.speed :=
  ⟨by norm_num [playerDX],
    c5_normalized_speed p0 ⟨true, false, false, true⟩
      (by norm_num [p0, mkTank, PLAYER_SPEED])
      (Or.inl (by norm_num [playerDX])),
    by norm_num [playerDY],
    c5_normalized_speed p0 ⟨true, false, false, false⟩
      (by norm_num [p0, mkTank, PLAYER_SPEED])
      (Or.inr (by norm_num [playerDY]))⟩

/-- C5 counterexample.  With ArrowUp and ArrowDown both held — at least one
directional key pressed — the net direction vector is zero, the tank does not
move, and the displacement magnitude is 0, not the fixed speed 2.6. -/
theorem c5_counterexample :
    (⟨true, true, false, false⟩ : Input).up = true ∧
    hypot ((handlePlayerInput p0 ⟨true, true, false, false⟩).x - p0.x)
      ((handlePlayerInput p0 ⟨true, true, false, false⟩).y - p0.y) = 0 ∧
    p0.speed = PLAYER_SPEED ∧ (0:ℝ) ≠ PLAYER_SPEED := by
  refine ⟨rfl, ?_, rfl, by norm_num [PLAYER_SPEED]⟩
  rw [show handlePlayerInput p0 ⟨true, true, false, false⟩ = p0 from by
    simp [handlePlayerInput, playerDX, playerDY]]
  norm_num [hypot, sub_self, Real.sqrt_zero]

/-- C6.  If the enemy roster is empty after the core of an `update(dt)` call
(player, enemies, bullets, collisions, bullet pruning), the same call refills
it to exactly 5 enemies before returning; hence after every `update(dt)` the
roster is non-empty. -/
theorem c6_roster_refill (W H dt : ℝ) (input : Input) (r : UpdateRand)
    (g : Game) :
    ((updateCore W H dt input r g).enemies = [] →
      (Game.update W H dt input r g).enemies.length = 5) ∧
    (Game.update W H dt input r g).enemies ≠ [] := by
  constructor
  · intro h
    unfold Game.update
    dsimp only
    rw [if_pos (by rw [h]; rfl)]
    dsimp only
    have := spawnEnemies_length W H r.spawn
    simpa [ENEMY_COUNT] using this
  · unfold Game.update
    dsimp only
    split
    · dsimp only
      intro hcon
      have := spawnEnemies_length W H r.spawn
      rw [hcon] at this
      simp [ENEMY_COUNT] at this
    · rename_i h
      intro hcon
      rw [hcon] at h
      exact h rfl

/-- C6 witness: a tick that starts with no enemies (and no bullets) ends with
exactly 5 freshly spawned enemies. -/
theorem c6_witness :
    (updateCore 800 600 16 input0 rand0 (Game.mk p0 [] [] 0 0 3 true)).enemies =
      [] ∧
    (Game.update 800 600 16 input0 rand0
        (Game.mk p0 [] [] 0 0 3 true)).enemies.length = 5 := by
  have hnil := updateCore_enemies_nil 800 600 16 input0 rand0
    (Game.mk p0 [] [] 0 0 3 true) rfl rfl
  exact ⟨hnil, (c6_roster_refill 800 600 16 input0 rand0 _).1 hnil⟩

/-- C7.  Across one `handleCollisions` pass the score rises by exactly 100 per
enemy removed, whether by tank collision or by player bullet (stated as a
conservation law: score plus 100 times the roster size is invariant, given
that every enemy starts strictly inside the playfield, as the per-tick clamp
guarantees); the score never decreases under `handleCollisions` or
`update(dt)`, and `reset()` is the only operation that writes 0. -/
theorem c7_score_accounting (W H dt : ℝ) (input : Input) (r : UpdateRand)
    (rs : ℕ → SpawnRand) (g : Game)
    (hpos : ∀ e ∈ g.enemies, (0:ℝ) < e.x) :
    ((handleCollisions W H g).score +
        100 * (handleCollisions W H g).enemies.length =
      g.score + 100 * g.enemies.length) ∧
    g.score ≤ (handleCollisions W H g).score ∧
    g.score ≤ (Game.update W H dt input r g).score ∧
    (reset W H rs g).score = 0 :=
  ⟨handleCollisions_conservation W H g hpos, handleCollisions_score_mono W H g,
    update_score_mono W H dt input r g, rfl⟩

/-- C7 witness: the conservation law instantiated at a concrete state. -/
theorem c7_witness :
    ((handleCollisions 800 600 (Game.mk p0 [] [] 0 0 3 true)).score +
        100 * (handleCollisions 800 600
          (Game.mk p0 [] [] 0 0 3 true)).enemies.length =
      (Game.mk p0 [] [] 0 0 3 true).score +
        100 * (Game.mk p0 [] [] 0 0 3 true).enemies.length) ∧
    (Game.mk p0 [] [] 0 0 3 true).score ≤
      (handleCollisions 800 600 (Game.mk p0 [] [] 0 0 3 true)).score ∧
    (Game.mk p0 [] [] 0 0 3 true).score ≤
      (Game.update 800 600 16 input0 rand0 (Game.mk p0 [] [] 0 0 3 true)).score ∧
    (reset 800 600 (fun _ => ⟨0, 0, 0⟩) (Game.mk p0 [] [] 0 0 3 true)).score = 0 :=
  c7_score_accounting 800 600 16 input0 rand0 (fun _ => ⟨0, 0, 0⟩)
    (Game.mk p0 [] [] 0 0 3 true) (by simp)

/-- C8.  A bullet's `active` flag after `Bullet.update` is true exactly when it
was true before and the new position has not left the playfield by more than
the 10-pixel margin; one collision-pass step deactivates an active bullet
exactly when it registers a hit (a player bullet scanning some enemy within
its radius, or an enemy bullet within the player's radius); every bullet the
collision pass outputs is the result of one such step on the corresponding
input bullet, so pass deactivation occurs only at hits; and no operation
re-activates a bullet: `Bullet.update` keeps inactive bullets inactive, and
each step and the whole pass leave a bullet active only if it came in
active. -/
theorem c8_bullet_deactivation (W H : ℝ) (b : Bullet) (g : Game) :
    ((Bullet.update W H b).active = true ↔
      (b.active = true ∧
        ¬ ((Bullet.update W H b).x < -10 ∨ (Bullet.update W H b).x > W + 10 ∨
            (Bullet.update W H b).y < -10 ∨ (Bullet.update W H b).y > H + 10))) ∧
    (b.active = true →
      ((bulletStep W H g b).2.active = false ↔
        ((b.owner = playerTag ∧
            ∃ e ∈ g.enemies, hypot (b.x - e.x) (b.y - e.y) < e.size / 2) ∨
          (b.owner = enemyTag ∧
            hypot (b.x - g.player.x) (b.y - g.player.y) <
              g.player.size / 2)))) ∧
    List.Forall₂ (fun a c => ∃ g2, (bulletStep W H g2 a).2 = c) g.bullets
      (handleCollisions W H g).bullets ∧
    (b.active = false → (Bullet.update W H b).active = false) ∧
    ((bulletStep W H g b).2.active = true → b.active = true) ∧
    List.Forall₂ (fun a c => c.active = true → a.active = true) g.bullets
      (handleCollisions W H g).bullets := by
  refine ⟨?_, bulletStep_deactivate_iff W H g b,
    handleCollisions_bullets_steps W H g, ?_,
    bulletStep_active_mono W H g b,
    handleCollisions_bullets_forall_two W H g⟩
  · unfold Bullet.update
    dsimp only
    split
    · rename_i hout
      simp [hout]
    · rename_i hout
      simp [hout]
  · intro hb
    unfold Bullet.update
    dsimp only
    split <;> simp [hb]

/-- C8 witness: for an active enemy bullet sitting on the player, the
hit-exactness equivalence from the claim theorem holds and its hit side is
satisfied, so the step does deactivate the bullet. -/
theorem c8_witness :
    bAtPlayer.active = true ∧
    ((bulletStep 800 600 (Game.mk p0 [] [bAtPlayer] 0 0 3 true)
        bAtPlayer).2.active = false ↔
      ((bAtPlayer.owner = playerTag ∧
          ∃ e ∈ (Game.mk p0 [] [bAtPlayer] 0 0 3 true).enemies,
            hypot (bAtPlayer.x - e.x) (bAtPlayer.y - e.y) < e.size / 2) ∨
        (bAtPlayer.owner = enemyTag ∧
          hypot (bAtPlayer.x - (Game.mk p0 [] [bAtPlayer] 0 0 3 true).player.x)
              (bAtPlayer.y - (Game.mk p0 [] [bAtPlayer] 0 0 3 true).player.y) <
            (Game.mk p0 [] [bAtPlayer] 0 0 3 true).player.size / 2))) ∧
    (bulletStep 800 600 (Game.mk p0 [] [bAtPlayer] 0 0 3 true)
        bAtPlayer).2.active = false := by
  have h := (c8_bullet_deactivation 800 600 bAtPlayer
    (Game.mk p0 [] [bAtPlayer] 0 0 3 true)).2.1 rfl
  exact ⟨rfl, h, h.mpr (Or.inr ⟨rfl, bAtPlayer_hits p0 rfl rfl rfl⟩)⟩

/-- C9.  In the bullet phase, one player bullet's scan over the roster scores
at most 100 (it deactivates on the first hit, so it hits at most one enemy)
and removes at most one enemy; and across the whole bullet phase the score
gained is at most 100 per enemy present, since a removed enemy leaves the
roster and cannot be hit again in the same tick. -/
theorem c9_at_most_one_hit :
    (∀ (bx bY : ℝ) (es : List Tank),
      (bulletEnemyScan bx bY true es).2.2.1 ≤ 100) ∧
    (∀ (bx bY : ℝ) (es : List Tank), (∀ e ∈ es, (0:ℝ) < e.x) →
      es.length ≤
        ((bulletEnemyScan bx bY true es).1.filter fun e =>
          decide (0 < e.x)).length + 1) ∧
    (∀ (W H : ℝ) (g : Game), (∀ e ∈ g.enemies, (0:ℝ) < e.x) →
      (bulletsScan W H g g.bullets).1.score ≤
        g.score + 100 * g.enemies.length) := by
  refine ⟨?_, ?_, ?_⟩
  · intro bx bY es
    exact bulletEnemyScan_score_le bx bY true es
  · intro bx bY es hpos
    have hc := bulletEnemyScan_conservation bx bY true es hpos
    have hs := bulletEnemyScan_score_le bx bY true es
    omega
  · intro W H g hpos
    have hc := bulletsScan_conservation W H g.bullets g hpos
    omega

/-- C9 witness: the three bounds instantiated at concrete scans. -/
theorem c9_witness :
    (bulletEnemyScan 0 0 true []).2.2.1 ≤ 100 ∧
    ([] : List Tank).length ≤
      ((bulletEnemyScan 0 0 true []).1.filter fun e =>
        decide (0 < e.x)).length + 1 ∧
    (bulletsScan 800 600 (Game.mk p0 [] [] 0 0 3 true)
        (Game.mk p0 [] [] 0 0 3 true).bullets).1.score ≤
      (Game.mk p0 [] [] 0 0 3 true).score +
        100 * (Game.mk p0 [] [] 0 0 3 true).enemies.length :=
  ⟨c9_at_most_one_hit.1 0 0 [], c9_at_most_one_hit.2.1 0 0 [] (by simp),
    c9_at_most_one_hit.2.2 800 600 (Game.mk p0 [] [] 0 0 3 true) (by simp)⟩

/-- C10.  The window keydown handler is not gated by the running flag: on
`Space`, whenever the player's cooldown is not positive, a player-owned
bullet (offset 70% of the tank size along the heading) is appended to the
bullet list and the cooldown is reset to 40, while the running flag is left
untouched — so firing works while idle, paused, or in game-over. -/
theorem c10_space_fires_regardless_of_running (W H : ℝ) (rs : ℕ → SpawnRand)
    (g : Game) (h : ¬ g.player.cooldown > 0) :
    (onKeydown W H rs g spaceKey).bullets =
      g.bullets ++ [mkBullet
        (g.player.x + Real.cos g.player.angle * g.player.size * 0.7)
        (g.player.y + Real.sin g.player.angle * g.player.size * 0.7)
        g.player.angle playerTag] ∧
    (onKeydown W H rs g spaceKey).running = g.running ∧
    (onKeydown W H rs g spaceKey).player.cooldown = 40 := by
  unfold onKeydown
  dsimp only
  rw [if_neg (show ¬ spaceKey = keyR by simp [spaceKey, keyR])]
  rw [if_pos rfl]
  unfold tryShoot
  rw [if_neg h]
  exact ⟨rfl, rfl, rfl⟩

/-- C10 witness: with the game not running and a cold cooldown, pressing Space
still appends a player bullet and leaves the game stopped. -/
theorem c10_witness :
    ¬ (Game.mk p0 [] [] 0 0 3 false).player.cooldown > 0 ∧
    (onKeydown 800 600 (fun _ => ⟨0, 0, 0⟩) (Game.mk p0 [] [] 0 0 3 false)
        spaceKey).bullets =
      [] ++ [mkBullet (p0.x + Real.cos p0.angle * p0.size * 0.7)
        (p0.y + Real.sin p0.angle * p0.size * 0.7) p0.angle playerTag] ∧
    (onKeydown 800 600 (fun _ => ⟨0, 0, 0⟩) (Game.mk p0 [] [] 0 0 3 false)
        spaceKey).running = false := by
  have hcd : ¬ (Game.mk p0 [] [] 0 0 3 false).player.cooldown > 0 := by
    norm_num [p0, mkTank]
  have h := c10_space_fires_regardless_of_running 800 600 (fun _ => ⟨0, 0, 0⟩)
    (Game.mk p0 [] [] 0 0 3 false) hcd
  exact ⟨hcd, h.1, h.2.1⟩

end

end TankGame
